import Mathlib

/-!
Verification development for the user_story_map_converter repository.

This file gives a shallow embedding, in Lean 4, of the two core components
of the repository:

* `src/core/tree_builder.py` — the `TreeBuilder` class that converts flat
  Lark table records into a forest of trees (validation of story numbers,
  parent/child linking, level computation, filter statistics);
* `src/core/lark_client.py` — the resilient API client: response
  classification (`RequestManager._handle_response`), the retry loop
  (`RequestManager.make_request_with_retry`), backoff delay computation
  (`RequestManager._calculate_delay`), cursor pagination
  (`LarkClient._get_table_records_by_obj_token`), and the token refresh
  logic of `EnhancedAuthManager`.

Modelling conventions:

* Python dicts of wire records are modelled as association lists
  (first-match lookup); field values are a tagged union `FieldValue`
  covering the two shapes the code inspects (plain strings and
  lists of reference items carrying `record_ids` / `text_arr`).
* Mutable statistics (`TreeBuilder.filtered_stats`) are threaded as
  explicit state.
* Wall-clock items (`build_timestamp`, `response_time`) are not modelled;
  `datetime.now()` is passed as an explicit integer `now` where its value
  matters for control flow.
* Network effects are modelled by injecting the sequence of HTTP responses
  (or token-endpoint responses) that the code would observe, and the
  uniform random jitter sample as an explicit rational parameter.
* Recursion over the child graph in the source is plain Python recursion;
  here it takes an explicit fuel argument (`ns.length` at the top call),
  which is sufficient because each node has a single parent field, so a
  path from a root never revisits a node.
-/

namespace UserStoryMap

/-! ### Wire data model (Lark records) -/

/-- One structured item inside a list-valued Lark field.  The tree builder
reads the keys `record_ids` (parent references) and `text_arr` (TCG
ticket numbers); a missing key is modelled by the empty list, matching
`dict.get(key, [])` in the source. -/
structure RefItem where
  record_ids : List String
  text_arr : List String
deriving DecidableEq, Repr

/-- A Lark field value, as inspected by `src/core/tree_builder.py`:
either a plain string or a list of structured items. -/
inductive FieldValue where
  | str (s : String)
  | refs (items : List RefItem)
deriving DecidableEq, Repr

/-- A raw Lark table record: `record.get('record_id')` and
`record.get('fields', {})`.  A missing `record_id` key is `none`. -/
structure LarkRecord where
  record_id : Option String
  fields : List (String × FieldValue)
deriving DecidableEq, Repr

/-- Dictionary lookup on the field map (`fields.get(name)`). -/
def getField (fields : List (String × FieldValue)) (key : String) : Option FieldValue :=
  match fields.find? (fun kv => kv.1 = key) with
  | some kv => some kv.2
  | none => none

/-- Python truthiness of a field value: the empty string and the empty
list are falsy, everything else is truthy. -/
def truthyField : FieldValue → Bool
  | .str s => s ≠ ""
  | .refs items => !items.isEmpty

/-- Python truthiness of an optional string (`None` and `''` are falsy). -/
def truthyStr : Option String → Bool
  | some s => s ≠ ""
  | none => false

/-! ### String helpers (`str.strip`, case-insensitive matching) -/

/-- The whitespace characters removed by Python's `str.strip()` (ASCII
range; the records the converter handles carry ASCII keys). -/
def isPyWhitespace (c : Char) : Bool :=
  c = ' ' || c = '\t' || c = '\n' || c = '\r' || c = '\x0b' || c = '\x0c'

/-- Python `str.strip()` on the underlying character list. -/
def pyStripList (cs : List Char) : List Char :=
  ((cs.dropWhile isPyWhitespace).reverse.dropWhile isPyWhitespace).reverse

/-- Python `str.strip()`. -/
def pyStrip (s : String) : String :=
  ⟨pyStripList s.data⟩

/-- ASCII letter (the `[A-Z]` class under `re.IGNORECASE`). -/
def isAsciiLetter (c : Char) : Bool :=
  ('A' ≤ c && c ≤ 'Z') || ('a' ≤ c && c ≤ 'z')

/-- ASCII letter or digit (the `[A-Z0-9]` class under `re.IGNORECASE`). -/
def isAsciiAlnum (c : Char) : Bool :=
  isAsciiLetter c || ('0' ≤ c && c ≤ '9')

/-! ### Story number validation

`TreeBuilder.story_pattern` is `^Story-[A-Z]+(-[A-Z0-9]+)+$` compiled with
`re.IGNORECASE` and used via `re.match` on the stripped story number, so
it is an anchored whole-string match.  The pattern is deterministic (each
segment is delimited by `-`), so it is embedded as a single left-to-right
scanner over the character list. -/

/-- Scanner state while matching `Story-[A-Z]+(-[A-Z0-9]+)+$` after the
first letter of the first segment has been consumed:
`letters` = inside the `[A-Z]+` segment (at least one letter seen);
`dash` = a `-` was just consumed, at least one `[A-Z0-9]` must follow;
`group` = inside a `[A-Z0-9]+` segment of the repeated group (at least
one character seen), so the end of input is accepting. -/
inductive ScanState where
  | letters
  | dash
  | group
deriving DecidableEq, Repr

/-- Scanner for the tail of the story pattern (everything after
`Story-X` where `X` is the first letter of the `[A-Z]+` segment). -/
def scanStory : ScanState → List Char → Bool
  | .letters, [] => false
  | .letters, c :: cs =>
      if isAsciiLetter c then scanStory .letters cs
      else if c = '-' then scanStory .dash cs
      else false
  | .dash, [] => false
  | .dash, c :: cs =>
      if isAsciiAlnum c then scanStory .group cs
      else false
  | .group, [] => true
  | .group, c :: cs =>
      if isAsciiAlnum c then scanStory .group cs
      else if c = '-' then scanStory .dash cs
      else false

/-- Anchored match of `^Story-[A-Z]+(-[A-Z0-9]+)+$` (case-insensitive):
the literal prefix `Story-` (case-folded), then at least one letter, then
the scanner above. -/
def storyMatch : List Char → Bool
  | c1 :: c2 :: c3 :: c4 :: c5 :: c6 :: c7 :: rest =>
      c1.toLower = 's' && c2.toLower = 't' && c3.toLower = 'o' &&
      c4.toLower = 'r' && c5.toLower = 'y' && c6 = '-' &&
      isAsciiLetter c7 && scanStory .letters rest
  | _ => false

/-- `TreeBuilder._is_valid_story_format`: strips the input and matches it
against the anchored pattern. -/
def isValidStoryFormat (s : String) : Bool :=
  storyMatch (pyStripList s.data)

/-! ### Record parsing (`TreeBuilder._parse_record` and helpers)

The default configuration is modelled: `field_mappings` maps
`story_no ↦ 'Story.No'`, `as_a ↦ 'As a'`, `i_want ↦ 'I want'`,
`features ↦ 'Features'`, `criteria ↦ 'Criteria'`, `tcg ↦ 'TCG'`, and
`parent_field_names = ['Parent Tickets', '父記錄', 'parent']`, with
`preserve_extra_fields = True`. -/

/-- Candidate parent field names scanned in order
(`TreeBuilder.parent_field_names`, default configuration). -/
def parentFieldNames : List String := ["Parent Tickets", "父記錄", "parent"]

/-- The core field names (`field_mappings` values plus the parent field
candidates); everything else lands in `extra_fields`. -/
def coreFieldNames : List String :=
  ["Story.No", "As a", "I want", "Features", "Criteria", "TCG"] ++ parentFieldNames

/-- Reading a text field: `fields.get(key, '')` followed by `.strip()`.
The source assumes the value, when present, is a string (`.strip()` is
attribute lookup on it); a present non-string value would raise in
Python, so the theorems about record parsing restrict quantification to
records whose text fields are string-valued (`wellFormedRecord`). -/
def getTextField (fields : List (String × FieldValue)) (key : String) : String :=
  match getField fields key with
  | some (.str s) => pyStrip s
  | _ => ""

/-- A record is well formed when the four fields the parser calls
`.strip()` on are absent or string-valued (the shape the Lark records
endpoint returns for text columns). -/
def textFieldOk (fields : List (String × FieldValue)) (key : String) : Bool :=
  match getField fields key with
  | none => true
  | some (.str _) => true
  | some (.refs _) => false

/-- Well-formedness of a raw record (see `getTextField`). -/
def wellFormedRecord (r : LarkRecord) : Bool :=
  textFieldOk r.fields "Story.No" && textFieldOk r.fields "As a" &&
  textFieldOk r.fields "I want" && textFieldOk r.fields "Features"

/-- `TreeBuilder._extract_parent_id`: scan the candidate names in order;
skip falsy values; a non-empty list whose first item carries a non-empty
`record_ids` yields its first id; a (non-empty) string value is returned
directly; otherwise continue with the next candidate. -/
def extractParentId (fields : List (String × FieldValue)) : Option String :=
  go parentFieldNames
where
  go : List String → Option String
    | [] => none
    | name :: names =>
      match getField fields name with
      | some v =>
        if truthyField v then
          match v with
          | .refs (item :: _) =>
            match item.record_ids with
            | id :: _ => some id
            | [] => go names
          | .refs [] => go names
          | .str s => some s
        else go names
      | none => go names

/-- `TreeBuilder._extract_tcg_value`: a falsy value yields `None`; a
non-empty list whose first item has a non-empty `text_arr` yields the
stripped first text, if that is non-empty; everything else yields
`None`. -/
def extractTcgValue (fields : List (String × FieldValue)) : Option String :=
  match getField fields "TCG" with
  | none => none
  | some v =>
    if truthyField v then
      match v with
      | .refs (item :: _) =>
        match item.text_arr with
        | t :: _ => if pyStrip t ≠ "" then some (pyStrip t) else none
        | [] => none
      | _ => none
    else none

/-- `TreeBuilder._build_description`: combine `As a` and `I want`, fall
back to `Features`, then to a fixed placeholder. -/
def buildDescription (as_a i_want features : String) : String :=
  if as_a ≠ "" && i_want ≠ "" then "As a " ++ as_a ++ ", I want " ++ i_want
  else if as_a ≠ "" then "As a " ++ as_a
  else if i_want ≠ "" then "I want " ++ i_want
  else if features ≠ "" then features
  else "No description"

/-- `TreeBuilder.filtered_stats`: counters of rejected and accepted
records. -/
structure Stats where
  empty_story_no : Nat
  invalid_format : Nat
  valid_records : Nat
deriving DecidableEq, Repr

/-- A parsed tree node before linking (the `TreeNode` dataclass of
`src/core/tree_builder.py`; `children` and `level` are derived later, so
they are not stored here). -/
structure PNode where
  record_id : String
  story_no : String
  description : String
  as_a : Option String
  i_want : Option String
  criteria : Option FieldValue
  tcg : Option String
  parent_id : Option String
  extra_fields : List (String × FieldValue)
deriving DecidableEq, Repr

/-- Python truthiness of the `record_id` value (`if not record_id`). -/
def truthyId (r : LarkRecord) : Bool :=
  truthyStr r.record_id

/-- The stripped story number of a record
(`fields.get('Story.No', '').strip()`). -/
def storyKey (r : LarkRecord) : String :=
  getTextField r.fields "Story.No"

/-- `TreeBuilder._parse_record`: validates the story number, updating the
filter statistics, and builds the node for a valid record. -/
def parseRecord (r : LarkRecord) (st : Stats) : Option PNode × Stats :=
  match r.record_id with
  | none => (none, st)
  | some rid =>
    if rid = "" then (none, st)
    else
      let story_no := storyKey r
      if story_no = "" then
        (none, { st with empty_story_no := st.empty_story_no + 1 })
      else if !isValidStoryFormat story_no then
        (none, { st with invalid_format := st.invalid_format + 1 })
      else
        let st' := { st with valid_records := st.valid_records + 1 }
        let as_a := getTextField r.fields "As a"
        let i_want := getTextField r.fields "I want"
        let features := getTextField r.fields "Features"
        let criteria := getField r.fields "Criteria"
        let node : PNode :=
          { record_id := rid
            story_no := story_no
            description := buildDescription as_a i_want features
            as_a := if as_a ≠ "" then some as_a else none
            i_want := if i_want ≠ "" then some i_want else none
            criteria :=
              match criteria with
              | some v => if truthyField v then some v else none
              | none => none
            tcg := extractTcgValue r.fields
            parent_id := extractParentId r.fields
            extra_fields := r.fields.filter (fun kv => !coreFieldNames.contains kv.1) }
        (some node, st')

/-- Insertion into the ordered node dictionary
(`nodes[node.record_id] = node`): replace in place if the key exists,
append otherwise. -/
def insertNode (ns : List PNode) (n : PNode) : List PNode :=
  if ns.any (fun m => m.record_id = n.record_id) then
    ns.map (fun m => if m.record_id = n.record_id then n else m)
  else ns ++ [n]

/-- The record-parsing loop of `TreeBuilder.build_tree` (lines 125-129):
parse each record, inserting the valid ones into the ordered node map,
threading the filter statistics. -/
def parsePhase : List LarkRecord → List PNode × Stats → List PNode × Stats
  | [], acc => acc
  | r :: rs, (ns, st) =>
    match parseRecord r st with
    | (some n, st') => parsePhase rs (insertNode ns n, st')
    | (none, st') => parsePhase rs (ns, st')

/-! ### Linking, levels and serialization
(`TreeBuilder.build_tree` lines 131-156, `_set_levels`, `TreeNode.to_dict`)

The linking loop makes node `m` a child of node `n` exactly when
`m.parent_id` is truthy and equals the key of `n` in the node map;
every other node has its `parent_id` cleared and becomes a root.
`_set_levels` then assigns depth `0` to each root and `parent + 1` to
each child, over exactly the child lists that `to_dict` serializes, so
the two traversals are fused here: the serialized level of a node is the
depth at which the traversal reaches it.  Because each node carries a
single `parent_id`, a node is appended to at most one child list and a
traversal from a root never revisits a node; fuel `ns.length` therefore
never runs out at the top-level call. -/

/-- Key list of the node map. -/
def nodeKeys (ns : List PNode) : List String :=
  ns.map (fun n => n.record_id)

/-- Root test (`build_tree` lines 134-139): a node is linked under a
parent exactly when its `parent_id` is truthy and present in the node
map; otherwise its `parent_id` is set to `None` and it becomes a root. -/
def isRoot (ns : List PNode) (n : PNode) : Bool :=
  match n.parent_id with
  | none => true
  | some p => p = "" || !(nodeKeys ns).contains p

/-- The children of node `n`, in encounter order: the nodes whose truthy
`parent_id` equals `n.record_id` (`parent.add_child(node)`). -/
def childNodes (ns : List PNode) (n : PNode) : List PNode :=
  ns.filter (fun m =>
    match m.parent_id with
    | some p => p ≠ "" && p = n.record_id
    | none => false)

/-- A serialized tree node (`TreeNode.to_dict`): the node fields plus the
computed level and the serialized children. -/
structure OutNode where
  record_id : String
  story_no : String
  description : String
  as_a : Option String
  i_want : Option String
  criteria : Option FieldValue
  tcg : Option String
  parent_id : Option String
  level : Nat
  children : List OutNode
  extra_fields : List (String × FieldValue)

/-- Serialization of the subtree rooted at `n` at depth `lvl`, fusing
`_set_levels` with `to_dict` (they traverse the same child lists from the
same roots).  `fuel` only bounds the recursion; at the top-level call it
is `ns.length`, which the single-parent structure makes sufficient. -/
def outTree (ns : List PNode) : Nat → PNode → Nat → OutNode
  | 0, n, lvl =>
    ⟨n.record_id, n.story_no, n.description, n.as_a, n.i_want, n.criteria,
      n.tcg, n.parent_id, lvl, [], n.extra_fields⟩
  | fuel + 1, n, lvl =>
    ⟨n.record_id, n.story_no, n.description, n.as_a, n.i_want, n.criteria,
      n.tcg, n.parent_id, lvl,
      (childNodes ns n).map (fun m => outTree ns fuel m (lvl + 1)),
      n.extra_fields⟩

/-- The result of `TreeBuilder.build_tree`: the serialized root trees and
the filter statistics reported in the metadata (`_get_metadata`; the
`build_timestamp` is wall clock and the `builder_version` and
`validation_pattern` entries are constants, so only the statistics are
carried here). -/
structure BuildResult where
  trees : List OutNode
  filtering_stats : Stats

/-- `TreeBuilder.build_tree`.  On an empty input it returns immediately
with the pre-call statistics; otherwise it resets the statistics, parses
the records, links children to parents, clears the parent reference of
every root, and serializes each root at depth 0.  The builder state
(second component) is the statistics attribute after the call. -/
def buildTree (st : Stats) (records : List LarkRecord) : BuildResult × Stats :=
  match records with
  | [] => (⟨[], st⟩, st)
  | _ :: _ =>
    let (ns, st') := parsePhase records ([], ⟨0, 0, 0⟩)
    let roots := ns.filter (isRoot ns)
    (⟨roots.map (fun r => outTree ns ns.length { r with parent_id := none } 0), st'⟩, st')

/-! ### Lark client: response classification
(`src/core/lark_client.py`, classes `LarkErrorType`, `LarkResponse`,
`RequestManager`) -/

/-- `LarkErrorType`: the error taxonomy of the client. -/
inductive LarkErrorType where
  | authentication
  | rate_limit
  | field_error
  | network
  | server
  | unknown
deriving DecidableEq, Repr

/-- The fields of the `data` payload that the pagination loop reads
(`items`, `page_token`, `has_more`); a missing key is modelled by the
`dict.get` default the source uses (`[]`, `None`, `False`). -/
structure PageData where
  items : List LarkRecord
  page_token : Option String
  has_more : Bool
deriving DecidableEq, Repr

/-- The `data` payload of an absent `data` key (`result.get('data', {})`
yields an empty dict, whose `get` calls return the defaults). -/
def emptyPage : PageData := ⟨[], none, false⟩

/-- A parsed JSON response body: the `code`/`msg` envelope plus the
`data` payload (restricted to the fields the modelled operations read). -/
structure HttpBody where
  code : Int
  msg : String
  data : Option PageData
deriving DecidableEq, Repr

/-- One raw HTTP response as observed by `_handle_response`: the status
code, the parsed `Retry-After` header if present, and the parsed JSON
body (`none` models a `json.JSONDecodeError`). -/
structure HttpResponse where
  status : Nat
  retryAfterHeader : Option Int
  body : Option HttpBody
deriving DecidableEq, Repr

/-- The `LarkResponse` dataclass (without `response_time`, which is wall
clock). -/
structure LarkResponse where
  success : Bool
  data : Option PageData := none
  error_type : Option LarkErrorType := none
  error_message : Option String := none
  retry_after : Option Int := none
deriving DecidableEq, Repr

/-- Naive substring test on character lists (Python's `in` on `str`). -/
def listContainsInfix (pat : List Char) : List Char → Bool
  | [] => pat.isEmpty
  | c :: cs => pat.isPrefixOf (c :: cs) || listContainsInfix pat cs

/-- Python `'FieldNameNotFound' in error_msg`. -/
def hasFieldNameNotFound (msg : String) : Bool :=
  listContainsInfix "FieldNameNotFound".data msg.data

/-- `RequestManager._handle_response`: classify an HTTP response.
`401 → authentication`, `429 → rate_limit` (recording the `Retry-After`
header, default 60), `status ≥ 500 → server`, any other non-200 →
`unknown`; for a 200, a body with application code 0 is a success
carrying the `data` payload, a `FieldNameNotFound` message is a
`field_error`, any other non-zero code is `unknown`, and an unparsable
body is `unknown`. -/
def handleResponse (r : HttpResponse) : LarkResponse :=
  if r.status = 401 then
    { success := false, error_type := some .authentication,
      error_message := some "認證失敗" }
  else if r.status = 429 then
    { success := false, error_type := some .rate_limit,
      error_message := some "速率限制",
      retry_after := some (r.retryAfterHeader.getD 60) }
  else if 500 ≤ r.status then
    { success := false, error_type := some .server,
      error_message := some ("伺服器錯誤: " ++ toString r.status) }
  else if r.status ≠ 200 then
    { success := false, error_type := some .unknown,
      error_message := some ("HTTP " ++ toString r.status) }
  else
    match r.body with
    | none =>
      { success := false, error_type := some .unknown,
        error_message := some "Invalid JSON response" }
    | some b =>
      if b.code = 0 then
        { success := true, data := some (b.data.getD emptyPage) }
      else if hasFieldNameNotFound b.msg then
        { success := false, error_type := some .field_error,
          error_message := some ("欄位錯誤: " ++ b.msg) }
      else
        { success := false, error_type := some .unknown,
          error_message := some ("API 錯誤: " ++ b.msg) }

/-! ### Lark client: retry loop (`RequestManager.make_request_with_retry`) -/

/-- Retry configuration of `RequestManager` (source defaults:
`max_retries = 3`, `retry_base_delay = 1.0`, `retry_max_delay = 60.0`). -/
structure RetryCfg where
  max_retries : Nat := 3
  base_delay : ℚ := 1
  max_delay : ℚ := 60

/-- The default retry configuration. -/
def defaultRetryCfg : RetryCfg := {}

/-- `RequestManager._should_retry`: only server, rate-limit and network
errors are retried, and only while attempts remain. -/
def shouldRetry (cfg : RetryCfg) (resp : LarkResponse) (attempt : Nat) : Bool :=
  if cfg.max_retries ≤ attempt then false
  else
    match resp.error_type with
    | some .server => true
    | some .rate_limit => true
    | some .network => true
    | _ => false

/-- `RequestManager._calculate_delay`.  The source tests
`if response and response.retry_after:`, so both an absent response and
a `retry_after` of `None` or `0` (Python falsy) fall through to
exponential backoff `base * 2^attempt` plus a jitter of
`uniform(0.1, 0.3)` times that value, capped at `max_delay`; a non-zero
`retry_after` is used directly, capped at `max_delay`.  The uniform
sample is passed in as `jf : ℚ`. -/
def calculateDelay (cfg : RetryCfg) (attempt : Nat) (resp : Option LarkResponse)
    (jf : ℚ) : ℚ :=
  let backoff :=
    let d := cfg.base_delay * 2 ^ attempt
    min (d + jf * d) cfg.max_delay
  match resp with
  | some r =>
    match r.retry_after with
    | some ra => if ra ≠ 0 then min (ra : ℚ) cfg.max_delay else backoff
    | none => backoff
  | none => backoff

/-- The observable trace of one `make_request_with_retry` call: the
returned response, the number of attempts issued, and the sequence of
backoff sleeps performed. -/
structure RetryTrace where
  result : LarkResponse
  attempts : Nat
  sleeps : List ℚ
deriving DecidableEq, Repr

/-- The loop body of `make_request_with_retry`, for injected responses:
`server i` is the HTTP response the `i`-th attempt observes and `jfs i`
its jitter sample.  `fuel` mirrors `for attempt in range(max_retries+1)`
(it starts at `max_retries + 1`); the fuel-exhaustion branch is the
post-loop `return` of the source, which (absent exceptions, which are
not injected here) is unreachable because `_should_retry` already fails
on the final attempt. -/
def retryFrom (cfg : RetryCfg) (server : Nat → HttpResponse) (jfs : Nat → ℚ) :
    Nat → Nat → RetryTrace
  | 0, _ =>
    ⟨{ success := false, error_type := some .network,
       error_message := some "重試後仍失敗" }, 0, []⟩
  | fuel + 1, attempt =>
    let resp := handleResponse (server attempt)
    if resp.success then ⟨resp, 1, []⟩
    else if shouldRetry cfg resp attempt then
      let d := calculateDelay cfg attempt (some resp) (jfs attempt)
      let t := retryFrom cfg server jfs fuel (attempt + 1)
      ⟨t.result, t.attempts + 1, d :: t.sleeps⟩
    else ⟨resp, 1, []⟩

/-- `RequestManager.make_request_with_retry` over injected responses. -/
def makeRequestWithRetry (cfg : RetryCfg) (server : Nat → HttpResponse)
    (jfs : Nat → ℚ) : RetryTrace :=
  retryFrom cfg server jfs (cfg.max_retries + 1) 0

/-! ### Lark client: pagination
(`LarkClient._get_table_records_by_obj_token`, lines 559-594) -/

/-- The pagination loop over the injected per-iteration responses of
`_make_authenticated_request`: a failed page breaks out and returns the
accumulated records; a successful page appends its items and continues
only when the new `page_token` is truthy and `has_more` is true.  The
source never raises on this path (errors are logged); totality of this
function is the embedded form of that. -/
def fetchPages : List LarkResponse → List LarkRecord → List LarkRecord
  | [], acc => acc
  | r :: rest, acc =>
    if r.success then
      let d := r.data.getD emptyPage
      let acc2 := acc ++ d.items
      match d.page_token with
      | none => acc2
      | some t => if t = "" then acc2 else if d.has_more then fetchPages rest acc2 else acc2
    else acc

/-- A page response that lets the loop continue: a success whose payload
carries a truthy `page_token` and `has_more = True`. -/
def continuingPage (r : LarkResponse) : Bool :=
  r.success &&
    (match (r.data.getD emptyPage).page_token with
     | some t => t ≠ "" && (r.data.getD emptyPage).has_more
     | none => false)

/-- The items accumulated from a list of page responses. -/
def pagesItems (rs : List LarkResponse) : List LarkRecord :=
  (rs.map (fun r => (r.data.getD emptyPage).items)).flatten

/-! ### Lark client: credential refresh (`EnhancedAuthManager`) -/

/-- One injected outcome of `_request_new_token`: a success carries the
parsed body fields `tenant_access_token` and `expire` (absent keys are
`none`); everything else (non-200, non-zero code, network error) is a
failed attempt. -/
inductive AuthResp where
  | ok (token : Option String) (expire : Option Int)
  | err
deriving DecidableEq, Repr

/-- The token state of `EnhancedAuthManager` (`_token`,
`_token_expire_time`; the expiry is an integer timestamp). -/
structure AuthState where
  token : Option String
  tokenExpire : Option Int
deriving DecidableEq, Repr

/-- `EnhancedAuthManager._needs_refresh`: truthiness of the token and its
expiry, and comparison with the current time. -/
def needsRefresh (now : Int) (st : AuthState) : Bool :=
  !truthyStr st.token ||
    (match st.tokenExpire with
     | none => true
     | some e => e ≤ now)

/-- `EnhancedAuthManager._update_token`: store the token and compute the
expiry as `now + expire - 300` with `expire` defaulting to 7200. -/
def updateToken (now : Int) (tok : Option String) (expire : Option Int)
    (_st : AuthState) : AuthState :=
  ⟨tok, some (now + expire.getD 7200 - 300)⟩

/-- The loop of `_refresh_token_with_retry` over injected endpoint
outcomes: on success, update the token and stop; on failure, sleep
`2^attempt` seconds if another attempt remains, else give up.  Returns
the success flag, the new state, the number of attempts issued and the
sleeps performed.  `fuel` mirrors `for attempt in range(auth_retries)`
and starts at `retries`. -/
def refreshFrom (retries : Nat) (server : Nat → AuthResp) (now : Int) :
    Nat → Nat → AuthState → Bool × AuthState × Nat × List ℕ
  | 0, _, st => (false, st, 0, [])
  | fuel + 1, attempt, st =>
    match server attempt with
    | .ok tok exp => (true, updateToken now tok exp st, 1, [])
    | .err =>
      if attempt + 1 < retries then
        match refreshFrom retries server now fuel (attempt + 1) st with
        | (b, st2, n, sl) => (b, st2, n + 1, 2 ^ attempt :: sl)
      else (false, st, 1, [])

/-- `EnhancedAuthManager._refresh_token_with_retry`. -/
def refreshWithRetry (retries : Nat) (server : Nat → AuthResp) (now : Int)
    (st : AuthState) : Bool × AuthState × Nat × List ℕ :=
  refreshFrom retries server now retries 0 st

/-- `EnhancedAuthManager.get_valid_token` (the mutual-exclusion guard is
not modelled; the call is single-threaded here): refresh when needed and
return the stored token on success, `none` on failure.  Also returns the
new state, the attempts issued and the sleeps performed. -/
def getValidToken (retries : Nat) (server : Nat → AuthResp) (now : Int)
    (st : AuthState) : Option String × AuthState × Nat × List ℕ :=
  if needsRefresh now st then
    match refreshWithRetry retries server now st with
    | (true, st2, n, sl) => (st2.token, st2, n, sl)
    | (false, st2, n, sl) => (none, st2, n, sl)
  else (st.token, st, 0, [])

/-! ### Derived notions used to state the claims -/

/-- The parent link actually followed by the linking loop: the truthy
`parent_id` of the node keyed `id`, provided it is itself a key of the
node map (otherwise the node becomes a root and the chain ends). -/
def parentKeyOf (ns : List PNode) (id : String) : Option String :=
  match ns.find? (fun n => n.record_id = id) with
  | none => none
  | some n =>
    match n.parent_id with
    | none => none
    | some p => if p ≠ "" && (nodeKeys ns).contains p then some p else none

/-- Length of the parent chain from `id`, bounded by `fuel`; `none` when
the chain does not end within `fuel` steps. -/
def chainLen (ns : List PNode) : Nat → String → Option Nat
  | 0, _ => none
  | fuel + 1, id =>
    match parentKeyOf ns id with
    | none => some 0
    | some p => (chainLen ns fuel p).map (· + 1)

/-- The parent references of the node map form no cycle: every parent
chain ends within `ns.length` steps (a chain without repetition visits
at most `ns.length` distinct nodes, so this bound is exact). -/
def acyclicNodes (ns : List PNode) : Bool :=
  ns.all (fun n => (chainLen ns ns.length n.record_id).isSome)

/-- The parent references of an input record list form no cycle: the
node map obtained by parsing it is acyclic. -/
def acyclicRecords (records : List LarkRecord) : Bool :=
  acyclicNodes (parsePhase records ([], ⟨0, 0, 0⟩)).1

/-- Level correctness of a serialized tree: the node's level is `lvl`
and every child satisfies the predicate at `lvl + 1` (so a root has
level 0 and every node's level is its parent's plus one). -/
inductive LevelsFrom : Nat → OutNode → Prop where
  | mk (lvl : Nat) (t : OutNode) :
      t.level = lvl →
      (∀ c ∈ t.children, LevelsFrom (lvl + 1) c) →
      LevelsFrom lvl t

/-- Occurrence of a record identifier anywhere in a serialized tree. -/
inductive Appears : String → OutNode → Prop where
  | here (t : OutNode) : Appears t.record_id t
  | child (id : String) (c t : OutNode) :
      c ∈ t.children → Appears id c → Appears id t

/-! ### Concrete fixtures for counterexamples and witnesses -/

/-- A record with a valid story number and a parent reference. -/
def mkRec (rid : String) (story : String) (parent : Option String) : LarkRecord :=
  { record_id := some rid
    fields :=
      [("Story.No", .str story)] ++
        (match parent with
         | some p => [("Parent Tickets", .refs [⟨[p], []⟩])]
         | none => []) }

/-- Cycle fixture: `recB`'s parent is `recA`, `recC`'s parent is `recB`,
and `recA`'s parent is `recC` — the parent chain A→B→C→A of the claim. -/
def cycRecA : LarkRecord := mkRec "recA" "Story-AAA-00001" (some "recC")

/-- Second record of the cycle fixture. -/
def cycRecB : LarkRecord := mkRec "recB" "Story-AAA-00002" (some "recA")

/-- Third record of the cycle fixture. -/
def cycRecC : LarkRecord := mkRec "recC" "Story-AAA-00003" (some "recB")

/-- The cyclic batch of the claim about parent cycles. -/
def cycleBatch : List LarkRecord := [cycRecA, cycRecB, cycRecC]

/-- Acyclic fixture: a root, a child, a grandchild, and one record with
an invalid story number (the end-to-end scenario of the spec). -/
def chainBatch : List LarkRecord :=
  [mkRec "recR" "Story-ARD-00001" none,
   mkRec "recC1" "Story-ARD-00002" (some "recR"),
   mkRec "recC2" "Story-ARD-00003" (some "recC1"),
   mkRec "recBad" "bad-key" none]

/-- Orphan fixture: a single valid record whose parent reference names a
record that is not in the batch. -/
def orphanRec : LarkRecord := mkRec "rec1" "Story-ARD-00001" (some "recX")

/-- The same record without any parent reference. -/
def noParentRec : LarkRecord := mkRec "rec1" "Story-ARD-00001" none

/-- Pagination fixture: a successful page carrying one record, a truthy
continuation cursor and `has_more = True`. -/
def contPage : LarkResponse :=
  { success := true, data := some ⟨[noParentRec], some "tok2", true⟩ }

/-- Pagination fixture: a successful final page (one record, no
cursor). -/
def stopPage : LarkResponse :=
  { success := true, data := some ⟨[orphanRec], none, false⟩ }

/-- Pagination fixture: a page request that failed after retries. -/
def serverFailPage : LarkResponse :=
  { success := false, error_type := some .server }

/-! ### Helper lemmas -/

/-- The serialized record id is the node's record id, whatever the fuel. -/
lemma outTree_record_id (ns : List PNode) (fuel : Nat) (n : PNode) (lvl : Nat) :
    (outTree ns fuel n lvl).record_id = n.record_id := by
  cases fuel <;> rfl

/-- The serialized parent id is the node's parent id, whatever the fuel. -/
lemma outTree_parent_id (ns : List PNode) (fuel : Nat) (n : PNode) (lvl : Nat) :
    (outTree ns fuel n lvl).parent_id = n.parent_id := by
  cases fuel <;> rfl

/-- The serialized level is the depth parameter, whatever the fuel. -/
lemma outTree_level (ns : List PNode) (fuel : Nat) (n : PNode) (lvl : Nat) :
    (outTree ns fuel n lvl).level = lvl := by
  cases fuel <;> rfl

/-- Levels are correct by the fused `_set_levels`/`to_dict` traversal:
the subtree serialized at depth `lvl` satisfies `LevelsFrom lvl`. -/
lemma levelsFrom_outTree (ns : List PNode) :
    ∀ (fuel : Nat) (n : PNode) (lvl : Nat), LevelsFrom lvl (outTree ns fuel n lvl) := by
  intro fuel
  induction fuel with
  | zero =>
    intro n lvl
    refine .mk lvl _ rfl ?_
    intro c hc
    simp [outTree] at hc
  | succ f ih =>
    intro n lvl
    refine .mk lvl _ rfl ?_
    intro c hc
    simp only [outTree, List.mem_map] at hc
    obtain ⟨m, _, rfl⟩ := hc
    exact ih m (lvl + 1)

/-- Every record id appearing in a serialized subtree is the id of some
node of the node map, provided the subtree's own root shares its id with
a member. -/
lemma appears_outTree (ns : List PNode) :
    ∀ (fuel : Nat) (n : PNode) (lvl : Nat) (id : String),
      (∃ n0, n0 ∈ ns ∧ n0.record_id = n.record_id) →
      Appears id (outTree ns fuel n lvl) →
      ∃ m, m ∈ ns ∧ m.record_id = id := by
  intro fuel
  induction fuel with
  | zero =>
    intro n lvl id hn h
    cases h with
    | here =>
      obtain ⟨n0, hmem, he⟩ := hn
      exact ⟨n0, hmem, by rw [he, outTree_record_id]⟩
    | child id c t hc _ =>
      simp [outTree] at hc
  | succ f ih =>
    intro n lvl id hn h
    cases h with
    | here =>
      obtain ⟨n0, hmem, he⟩ := hn
      exact ⟨n0, hmem, by rw [he, outTree_record_id]⟩
    | child id c t hc hap =>
      simp only [outTree, List.mem_map] at hc
      obtain ⟨m, hm, rfl⟩ := hc
      have hm' : m ∈ ns := List.mem_of_mem_filter hm
      exact ih m (lvl + 1) id ⟨m, hm', rfl⟩ hap

/-- Members of the node map after an insertion are the inserted node or
previous members. -/
lemma insertNode_mem {ns : List PNode} {n m : PNode} (h : m ∈ insertNode ns n) :
    m ∈ ns ∨ m = n := by
  unfold insertNode at h
  by_cases hex : ns.any (fun x => x.record_id = n.record_id)
  · rw [if_pos hex] at h
    obtain ⟨x, hx, he⟩ := List.mem_map.mp h
    by_cases hxe : x.record_id = n.record_id
    · right; rw [if_pos hxe] at he; exact he.symm
    · left; rw [if_neg hxe] at he; exact he ▸ hx
  · rw [if_neg hex] at h
    rcases List.mem_append.mp h with h1 | h1
    · exact Or.inl h1
    · exact Or.inr (List.mem_singleton.mp h1)

/-- A record without a truthy `record_id` is dropped without touching the
statistics (`_parse_record` returns before any counter update). -/
lemma parseRecord_not_truthy (r : LarkRecord) (st : Stats) (h : truthyId r = false) :
    parseRecord r st = (none, st) := by
  unfold parseRecord
  unfold truthyId truthyStr at h
  rcases hr : r.record_id with _ | rid
  · simp
  · rw [hr] at h
    simp only [ne_eq, decide_not, Bool.not_eq_false', decide_eq_true_eq] at h
    simp [h]

/-- A record with a truthy id and an empty (stripped) story number is
dropped and counted under `empty_story_no`. -/
lemma parseRecord_empty (r : LarkRecord) (st : Stats) (h : truthyId r = true)
    (hs : storyKey r = "") :
    parseRecord r st = (none, { st with empty_story_no := st.empty_story_no + 1 }) := by
  unfold parseRecord
  unfold truthyId truthyStr at h
  rcases hr : r.record_id with _ | rid
  · rw [hr] at h; simp at h
  · rw [hr] at h
    simp only [ne_eq, decide_not, Bool.not_eq_true', decide_eq_false_iff_not] at h
    simp [h, hs]

/-- A record with a truthy id and a non-empty story number that fails
the pattern is dropped and counted under `invalid_format`. -/
lemma parseRecord_invalid (r : LarkRecord) (st : Stats) (h : truthyId r = true)
    (hs : storyKey r ≠ "") (hv : isValidStoryFormat (storyKey r) = false) :
    parseRecord r st = (none, { st with invalid_format := st.invalid_format + 1 }) := by
  unfold parseRecord
  unfold truthyId truthyStr at h
  rcases hr : r.record_id with _ | rid
  · rw [hr] at h; simp at h
  · rw [hr] at h
    simp only [ne_eq, decide_not, Bool.not_eq_true', decide_eq_false_iff_not] at h
    simp [h, hs, hv]

/-- A record with a truthy id and a valid story number becomes a node
carrying that id and story number, counted under `valid_records`. -/
lemma parseRecord_valid (r : LarkRecord) (st : Stats) (h : truthyId r = true)
    (hs : storyKey r ≠ "") (hv : isValidStoryFormat (storyKey r) = true) :
    ∃ n : PNode,
      parseRecord r st = (some n, { st with valid_records := st.valid_records + 1 }) ∧
      some n.record_id = r.record_id ∧ n.story_no = storyKey r := by
  unfold parseRecord
  unfold truthyId truthyStr at h
  rcases hr : r.record_id with _ | rid
  · rw [hr] at h; simp at h
  · rw [hr] at h
    simp only [ne_eq, decide_not, Bool.not_eq_true', decide_eq_false_iff_not] at h
    simp only [if_neg h, if_neg hs, hv, Bool.not_true, Bool.false_eq_true, if_false]
    exact ⟨_, rfl, rfl, rfl⟩

/-- A successfully parsed node has a valid story number and carries the
record's id. -/
lemma parseRecord_some (r : LarkRecord) (st : Stats) (n : PNode) (st' : Stats)
    (h : parseRecord r st = (some n, st')) :
    isValidStoryFormat n.story_no = true ∧ some n.record_id = r.record_id := by
  by_cases ht : truthyId r = true
  · by_cases hs : storyKey r = ""
    · rw [parseRecord_empty r st ht hs] at h
      simp at h
    · by_cases hv : isValidStoryFormat (storyKey r) = true
      · obtain ⟨n', he, hid, hstory⟩ := parseRecord_valid r st ht hs hv
        rw [he] at h
        obtain ⟨h1, -⟩ := Prod.mk.injEq .. ▸ h
        obtain rfl : n' = n := by injection h1
        exact ⟨hstory ▸ hv, hid⟩
      · rw [parseRecord_invalid r st ht hs (by simpa using hv)] at h
        simp at h
  · rw [parseRecord_not_truthy r st (by simpa using ht)] at h
    simp at h

/-- Exactly one counter is bumped per record with a truthy id, none for a
record without one: the counter total grows accordingly. -/
lemma parseRecord_stats (r : LarkRecord) (st : Stats) :
    (parseRecord r st).2.empty_story_no + (parseRecord r st).2.invalid_format +
        (parseRecord r st).2.valid_records =
      st.empty_story_no + st.invalid_format + st.valid_records +
        (if truthyId r then 1 else 0) := by
  by_cases ht : truthyId r = true
  · by_cases hs : storyKey r = ""
    · rw [parseRecord_empty r st ht hs]
      simp [ht]; omega
    · by_cases hv : isValidStoryFormat (storyKey r) = true
      · obtain ⟨n', he, -, -⟩ := parseRecord_valid r st ht hs hv
        rw [he]
        simp [ht]; omega
      · rw [parseRecord_invalid r st ht hs (by simpa using hv)]
        simp [ht]; omega
  · rw [parseRecord_not_truthy r st (by simpa using ht)]
    simp [ht]

/-- The counter total over a whole parsing pass equals the starting total
plus the number of records with a truthy id. -/
lemma parsePhase_stats :
    ∀ (records : List LarkRecord) (ns : List PNode) (st : Stats),
      (parsePhase records (ns, st)).2.empty_story_no +
          (parsePhase records (ns, st)).2.invalid_format +
          (parsePhase records (ns, st)).2.valid_records =
        st.empty_story_no + st.invalid_format + st.valid_records +
          (records.filter (fun r => truthyId r)).length := by
  intro records
  induction records with
  | nil => intro ns st; simp [parsePhase]
  | cons r rs ih =>
    intro ns st
    have hsum := parseRecord_stats r st
    rcases hp : parseRecord r st with ⟨ov, st1⟩
    rw [hp] at hsum
    by_cases ht : truthyId r = true
    · simp only [List.filter_cons, ht, if_true, List.length_cons]
      cases ov with
      | some n =>
        simp only [parsePhase, hp]
        rw [ih (insertNode ns n) st1]
        simp [ht] at hsum
        omega
      | none =>
        simp only [parsePhase, hp]
        rw [ih ns st1]
        simp [ht] at hsum
        omega
    · have ht' : truthyId r = false := by simpa using ht
      simp only [List.filter_cons, ht', Bool.false_eq_true, if_false]
      cases ov with
      | some n =>
        simp only [parsePhase, hp]
        rw [ih (insertNode ns n) st1]
        simp [ht'] at hsum
        omega
      | none =>
        simp only [parsePhase, hp]
        rw [ih ns st1]
        simp [ht'] at hsum
        omega

/-- Every node produced by a parsing pass has a valid story number
(valid nodes are inserted, everything else is dropped). -/
lemma parsePhase_valid :
    ∀ (records : List LarkRecord) (acc : List PNode × Stats),
      (∀ n ∈ acc.1, isValidStoryFormat n.story_no = true) →
      ∀ n ∈ (parsePhase records acc).1, isValidStoryFormat n.story_no = true := by
  intro records
  induction records with
  | nil => intro acc hacc; exact hacc
  | cons r rs ih =>
    intro ⟨ns, st⟩ hacc
    rcases hp : parseRecord r st with ⟨ov, st1⟩
    cases ov with
    | some n =>
      simp only [parsePhase, hp]
      refine ih (insertNode ns n, st1) ?_
      intro m hm
      rcases insertNode_mem hm with h1 | rfl
      · exact hacc m h1
      · exact (parseRecord_some r st m st1 hp).1
    | none =>
      simp only [parsePhase, hp]
      exact ih (ns, st1) hacc

/-! ### Claim theorems -/

/-- Claim C1, counterexample.  The claim states that a parent cycle makes
`build_tree` raise a StructuralCycle fault rather than return a forest.
The source contains no cycle detection and no raise site on this path:
on the cyclic batch A→B→C→A every node is linked under its parent, no
node becomes a root, and the call returns normally with an empty tree
list (all three records counted as valid).  The embedding is total
because the source path is; this evaluation exhibits the normal return
value that the claim says cannot happen. -/
theorem C1_counterexample :
    buildTree ⟨0, 0, 0⟩ cycleBatch = (⟨[], ⟨0, 0, 3⟩⟩, ⟨0, 0, 3⟩) := rfl

/-- Claim C1, amended: an input whose parent references form a cycle
(the batch fails the acyclicity check) does not raise; `build_tree`
returns normally, the cyclic records are absent from the returned forest
(for a batch that is exactly the cycle the tree list is empty), and they
are still counted as valid records. -/
theorem C1_amended (st : Stats) :
    acyclicRecords cycleBatch = false ∧
    (buildTree st cycleBatch).1.trees = [] ∧
    (buildTree st cycleBatch).2 = ⟨0, 0, 3⟩ :=
  ⟨rfl, rfl, rfl⟩

/-- Claim C2: for every record list whose text fields are string-valued
(the wire shape `.strip()` requires) and whose parent references form no
cycle, `build_tree` terminates — witnessed by the totality of the
embedding, whose fuel `ns.length` covers every acyclic parent chain —
and in the returned forest every root tree satisfies `LevelsFrom 0`:
each root has level 0 and every child's level is its parent's plus 1. -/
theorem C2_levels (st : Stats) (records : List LarkRecord)
    (hwf : records.all wellFormedRecord = true)
    (hacyc : acyclicRecords records = true) :
    ∀ t ∈ (buildTree st records).1.trees, LevelsFrom 0 t := by
  intro t ht
  cases records with
  | nil => simp [buildTree] at ht
  | cons r rs =>
    rcases hp : parsePhase (r :: rs) ([], ⟨0, 0, 0⟩) with ⟨ns, st'⟩
    simp only [buildTree, hp, List.mem_map] at ht
    obtain ⟨root, -, rfl⟩ := ht
    exact levelsFrom_outTree ns ns.length _ 0

/-- Claim C2, witness: the acyclic chain batch (root, child, grandchild,
one invalid record) satisfies both hypotheses and its forest has correct
levels. -/
theorem C2_levels_witness :
    chainBatch.all wellFormedRecord = true ∧
    acyclicRecords chainBatch = true ∧
    ∀ t ∈ (buildTree ⟨0, 0, 0⟩ chainBatch).1.trees, LevelsFrom 0 t :=
  ⟨by decide, by decide, C2_levels ⟨0, 0, 0⟩ chainBatch (by decide) (by decide)⟩

/-- Claim C5: injected HTTP 503, 503, 200 (application code 0) makes the
retry loop perform exactly 2 retries — the two backoff sleeps — and
return a success response on the third attempt; injected HTTP 401 is
classified as authentication and returned after a single attempt with no
retry and no sleep.  Both hold for every jitter stream. -/
theorem C5_retry_scenarios (jfs : Nat → ℚ) :
    (let t := makeRequestWithRetry defaultRetryCfg
        (fun i => if i < 2 then ⟨503, none, none⟩ else ⟨200, none, some ⟨0, "", none⟩⟩) jfs
     t.result.success = true ∧ t.attempts = 3 ∧ t.sleeps.length = 2) ∧
    (let t := makeRequestWithRetry defaultRetryCfg (fun _ => ⟨401, none, none⟩) jfs
     t.result.success = false ∧ t.result.error_type = some .authentication ∧
       t.attempts = 1 ∧ t.sleeps = []) :=
  ⟨⟨rfl, rfl, rfl⟩, ⟨rfl, rfl, rfl, rfl⟩⟩

/-- Claim C7: a token endpoint that fails twice and succeeds on the third
attempt makes `get_valid_token` (on a fresh manager, which needs a
refresh) return the new token after exactly 3 attempts, sleeping
`2^0` seconds after the first failure and `2^1` after the second, with
no sleep after the success. -/
theorem C7_auth_refresh (tok : String) (exp : Int) :
    getValidToken 3 (fun i => if i < 2 then .err else .ok (some tok) (some exp)) 0
        ⟨none, none⟩ =
      (some tok, ⟨some tok, some (0 + exp - 300)⟩, 3, [2 ^ 0, 2 ^ 1]) := rfl

/-- Claim C10: `build_tree` on an empty record list returns an empty tree
list immediately, before the statistics reset, so the builder's counters
are left unchanged and the returned metadata reports the prior counter
values rather than zeros. -/
theorem C10_empty_build (st : Stats) :
    buildTree st [] = (⟨[], st⟩, st) := rfl

/-- Claim C3: for every record with a truthy id (and string-valued text
fields, the wire shape): an empty stripped story number drops the record
and bumps `empty_story_no`; a non-empty one failing the pattern drops it
and bumps `invalid_format`; a valid one bumps `valid_records` and yields
a node with that id and story number.  Moreover every record id
appearing anywhere in a built forest is the id of a parsed (hence
pattern-valid) node, so rejected records appear nowhere in the forest. -/
theorem C3_filtering (r : LarkRecord) (st : Stats)
    (hwf : wellFormedRecord r = true) (hid : truthyId r = true) :
    (storyKey r = "" →
      parseRecord r st = (none, { st with empty_story_no := st.empty_story_no + 1 })) ∧
    (storyKey r ≠ "" → isValidStoryFormat (storyKey r) = false →
      parseRecord r st = (none, { st with invalid_format := st.invalid_format + 1 })) ∧
    (storyKey r ≠ "" → isValidStoryFormat (storyKey r) = true →
      ∃ n : PNode,
        parseRecord r st = (some n, { st with valid_records := st.valid_records + 1 }) ∧
        some n.record_id = r.record_id ∧ n.story_no = storyKey r) ∧
    (∀ (records : List LarkRecord) (st0 : Stats) (id : String) (t : OutNode),
      t ∈ (buildTree st0 records).1.trees → Appears id t →
      ∃ m, m ∈ (parsePhase records ([], ⟨0, 0, 0⟩)).1 ∧ m.record_id = id ∧
        isValidStoryFormat m.story_no = true) := by
  refine ⟨parseRecord_empty r st hid, parseRecord_invalid r st hid,
    fun hs hv => parseRecord_valid r st hid hs hv, ?_⟩
  intro records st0 id t ht hap
  cases records with
  | nil => simp [buildTree] at ht
  | cons q qs =>
    rcases hpp : parsePhase (q :: qs) ([], ⟨0, 0, 0⟩) with ⟨ns, st'⟩
    simp only [buildTree, hpp, List.mem_map] at ht
    obtain ⟨root, hroot, rfl⟩ := ht
    have hroot' : root ∈ ns := List.mem_of_mem_filter hroot
    obtain ⟨m, hm, hmid⟩ :=
      appears_outTree ns ns.length { root with parent_id := none } 0 id
        ⟨root, hroot', rfl⟩ hap
    have hval : isValidStoryFormat m.story_no = true := by
      have hv := parsePhase_valid (q :: qs) ([], ⟨0, 0, 0⟩)
        (fun n hn => absurd hn (List.not_mem_nil n)) m
      rw [hpp] at hv
      exact hv hm
    exact ⟨m, hm, hmid, hval⟩

/-- Claim C3, witness: a concrete valid record exercises the hypotheses
and the valid branch of the classification. -/
theorem C3_filtering_witness :
    wellFormedRecord noParentRec = true ∧ truthyId noParentRec = true ∧
    ((storyKey noParentRec = "" →
      parseRecord noParentRec ⟨0, 0, 0⟩ = (none, { empty_story_no := 1, invalid_format := 0, valid_records := 0 })) ∧
    (storyKey noParentRec ≠ "" → isValidStoryFormat (storyKey noParentRec) = false →
      parseRecord noParentRec ⟨0, 0, 0⟩ = (none, { empty_story_no := 0, invalid_format := 1, valid_records := 0 })) ∧
    (storyKey noParentRec ≠ "" → isValidStoryFormat (storyKey noParentRec) = true →
      ∃ n : PNode,
        parseRecord noParentRec ⟨0, 0, 0⟩ = (some n, { empty_story_no := 0, invalid_format := 0, valid_records := 1 }) ∧
        some n.record_id = noParentRec.record_id ∧ n.story_no = storyKey noParentRec) ∧
    (∀ (records : List LarkRecord) (st0 : Stats) (id : String) (t : OutNode),
      t ∈ (buildTree st0 records).1.trees → Appears id t →
      ∃ m, m ∈ (parsePhase records ([], ⟨0, 0, 0⟩)).1 ∧ m.record_id = id ∧
        isValidStoryFormat m.story_no = true)) :=
  ⟨by decide, by decide, C3_filtering noParentRec ⟨0, 0, 0⟩ (by decide) (by decide)⟩

/-- Claim C4, counterexample.  The claim states that a record whose
parent references a nonexistent record becomes a root (true) and that
the build result counts it as an orphan.  The result metadata of
`build_tree` carries only the three filter counters
(`empty_story_no`, `invalid_format`, `valid_records`) — there is no
orphan counting anywhere in `src/core/tree_builder.py` — so the build
result for a batch with a dangling parent reference is identical to the
result for the same batch with the reference removed: nothing in the
result records the orphan. -/
theorem C4_counterexample :
    buildTree ⟨0, 0, 0⟩ [orphanRec] = buildTree ⟨0, 0, 0⟩ [noParentRec] ∧
    (buildTree ⟨0, 0, 0⟩ [orphanRec]).1.filtering_stats = ⟨0, 0, 1⟩ :=
  ⟨rfl, rfl⟩

/-- Claim C4, amended: a parsed node whose truthy parent reference is not
a key of the node map becomes a root of the returned forest with its
parent reference cleared and level 0; the build result's statistics are
exactly the parsing statistics — the result carries no orphan count. -/
theorem C4_amended (st : Stats) (records : List LarkRecord) (hne : records ≠ [])
    (n : PNode) (p : String)
    (hn : n ∈ (parsePhase records ([], ⟨0, 0, 0⟩)).1)
    (hp : n.parent_id = some p) (hpne : p ≠ "")
    (hdang : (nodeKeys (parsePhase records ([], ⟨0, 0, 0⟩)).1).contains p = false) :
    (∃ t ∈ (buildTree st records).1.trees,
      t.record_id = n.record_id ∧ t.parent_id = none ∧ t.level = 0) ∧
    (buildTree st records).2 = (parsePhase records ([], ⟨0, 0, 0⟩)).2 := by
  cases records with
  | nil => exact absurd rfl hne
  | cons q qs =>
    rcases hpp : parsePhase (q :: qs) ([], ⟨0, 0, 0⟩) with ⟨ns, st'⟩
    rw [hpp] at hn hdang
    have hn' : n ∈ ns := hn
    have hdang' : (nodeKeys ns).contains p = false := hdang
    have hroot : isRoot ns n = true := by
      have hnotin : p ∉ nodeKeys ns := by simpa using hdang'
      simp only [isRoot, hp]
      simp [hnotin]
    constructor
    · refine ⟨outTree ns ns.length { n with parent_id := none } 0, ?_, ?_, ?_, ?_⟩
      · simp only [buildTree, hpp, List.mem_map]
        exact ⟨n, List.mem_filter.mpr ⟨hn', hroot⟩, rfl⟩
      · rw [outTree_record_id]
      · rw [outTree_parent_id]
      · rw [outTree_level]
    · simp [buildTree, hpp]

/-- Claim C4, amended, witness: the single-record orphan batch. -/
theorem C4_amended_witness :
    ([orphanRec] ≠ ([] : List LarkRecord)) ∧
    (⟨"rec1", "Story-ARD-00001", "No description", none, none, none, none,
        some "recX", []⟩ : PNode) ∈ (parsePhase [orphanRec] ([], ⟨0, 0, 0⟩)).1 ∧
    ((∃ t ∈ (buildTree ⟨0, 0, 0⟩ [orphanRec]).1.trees,
      t.record_id = "rec1" ∧ t.parent_id = none ∧ t.level = 0) ∧
      (buildTree ⟨0, 0, 0⟩ [orphanRec]).2 = (parsePhase [orphanRec] ([], ⟨0, 0, 0⟩)).2) :=
  ⟨by decide, by decide,
    C4_amended ⟨0, 0, 0⟩ [orphanRec] (by decide)
      ⟨"rec1", "Story-ARD-00001", "No description", none, none, none, none,
        some "recX", []⟩ "recX" (by decide) (by decide) (by decide) (by decide)⟩

/-- Claim C9: after a build on a non-empty record list (string-valued
text fields), the three counters partition the records bearing a truthy
identifier: their sum is the number of such records; and a record
without a truthy identifier yields no node and leaves the statistics
untouched. -/
theorem C9_counter_partition (st0 : Stats) (records : List LarkRecord)
    (hne : records ≠ []) (hwf : records.all wellFormedRecord = true) :
    ((buildTree st0 records).2.empty_story_no + (buildTree st0 records).2.invalid_format +
        (buildTree st0 records).2.valid_records =
      (records.filter (fun r => truthyId r)).length) ∧
    (∀ (r : LarkRecord) (st : Stats), truthyId r = false → parseRecord r st = (none, st)) := by
  constructor
  · cases records with
    | nil => exact absurd rfl hne
    | cons q qs =>
      have hsum := parsePhase_stats (q :: qs) [] ⟨0, 0, 0⟩
      rcases hpp : parsePhase (q :: qs) ([], ⟨0, 0, 0⟩) with ⟨ns, st'⟩
      rw [hpp] at hsum
      simpa [buildTree, hpp] using hsum
  · exact fun r st h => parseRecord_not_truthy r st h

/-- Claim C9, witness: the chain batch (three valid records, one invalid,
all with identifiers) and a record without an identifier. -/
theorem C9_counter_partition_witness :
    (chainBatch ≠ []) ∧ chainBatch.all wellFormedRecord = true ∧
    (((buildTree ⟨7, 7, 7⟩ chainBatch).2.empty_story_no +
        (buildTree ⟨7, 7, 7⟩ chainBatch).2.invalid_format +
        (buildTree ⟨7, 7, 7⟩ chainBatch).2.valid_records =
      (chainBatch.filter (fun r => truthyId r)).length) ∧
    (∀ (r : LarkRecord) (st : Stats), truthyId r = false → parseRecord r st = (none, st))) :=
  ⟨by decide, by decide, C9_counter_partition ⟨7, 7, 7⟩ chainBatch (by decide) (by decide)⟩

/-- Claim C6: during a multi-page fetch over any run of successful
continuing pages, (a) a page that fails after retries stops pagination
and returns exactly the records accumulated from the earlier pages —
without raising, the loop being total — and (b) a successful page whose
payload omits a truthy continuation cursor or clears `has_more` stops
pagination right after contributing its own items; in both cases the
responses after the stopping page are never consumed. -/
theorem C6_pagination (goods : List LarkResponse) (r : LarkResponse)
    (rest : List LarkResponse) (acc : List LarkRecord)
    (hg : ∀ g ∈ goods, continuingPage g = true) :
    (r.success = false → fetchPages (goods ++ r :: rest) acc = acc ++ pagesItems goods) ∧
    (r.success = true → continuingPage r = false →
      fetchPages (goods ++ r :: rest) acc =
        acc ++ pagesItems goods ++ (r.data.getD emptyPage).items) := by
  induction goods generalizing acc with
  | nil =>
    constructor
    · intro hf
      simp [fetchPages, hf, pagesItems]
    · intro hs hc
      unfold continuingPage at hc
      rw [hs] at hc
      simp only [Bool.true_and] at hc
      unfold fetchPages
      rcases hpt : (r.data.getD emptyPage).page_token with _ | t
      · simp [hs, hpt, pagesItems]
      · rw [hpt] at hc
        by_cases hte : t = ""
        · simp [hs, hpt, hte, pagesItems]
        · have hhm : (r.data.getD emptyPage).has_more = false := by
            simpa [hte] using hc
          simp [hs, hpt, hte, hhm, pagesItems]
  | cons g gs ih =>
    have hgc := hg g (List.mem_cons_self g gs)
    have hrest : ∀ x ∈ gs, continuingPage x = true :=
      fun x hx => hg x (List.mem_cons_of_mem g hx)
    unfold continuingPage at hgc
    rcases hpt : (g.data.getD emptyPage).page_token with _ | t
    · rw [hpt] at hgc
      simp at hgc
    · rw [hpt] at hgc
      simp only [Bool.and_eq_true, ne_eq, decide_not, Bool.not_eq_true',
        decide_eq_false_iff_not] at hgc
      obtain ⟨hgs, hte, hhm⟩ := hgc
      have hstep : ∀ acc2 : List LarkRecord,
          fetchPages ((g :: gs) ++ r :: rest) acc2 =
            fetchPages (gs ++ r :: rest) (acc2 ++ (g.data.getD emptyPage).items) := by
        intro acc2
        simp [fetchPages, hgs, hpt, hte, hhm]
      constructor
      · intro hf
        rw [hstep acc, (ih _ hrest).1 hf]
        simp [pagesItems]
      · intro hs hc
        rw [hstep acc, (ih _ hrest).2 hs hc]
        simp [pagesItems]

/-- Claim C6, witness: one continuing page, then a final page (no
cursor), then a page that is never requested. -/
theorem C6_pagination_witness :
    (∀ g ∈ [contPage], continuingPage g = true) ∧
    ((stopPage.success = false →
      fetchPages ([contPage] ++ stopPage :: [serverFailPage]) [] =
        [] ++ pagesItems [contPage]) ∧
    (stopPage.success = true → continuingPage stopPage = false →
      fetchPages ([contPage] ++ stopPage :: [serverFailPage]) [] =
        [] ++ pagesItems [contPage] ++ (stopPage.data.getD emptyPage).items)) :=
  ⟨by decide, C6_pagination [contPage] stopPage [serverFailPage] [] (by decide)⟩

/-- Claim C8, counterexample.  The claim states that whenever the failed
response carries a server-suggested delay, the wait is
`min(suggested, max_delay)`.  The source tests Python truthiness
(`if response and response.retry_after:`), so a suggested delay of `0`
(a server sending `Retry-After: 0`) falls through to exponential
backoff: at attempt 0 with the default configuration and jitter sample
`0.2` the computed delay is `6/5`, not `min(0, 60) = 0`. -/
theorem C8_counterexample :
    calculateDelay defaultRetryCfg 0
        (some { success := false, error_type := some .rate_limit, retry_after := some 0 })
        (1/5) = 6/5 ∧
    ¬ (calculateDelay defaultRetryCfg 0
        (some { success := false, error_type := some .rate_limit, retry_after := some 0 })
        (1/5) =
      min ((0 : ℤ) : ℚ) defaultRetryCfg.max_delay) := by
  have hcd : calculateDelay defaultRetryCfg 0
      (some { success := false, error_type := some .rate_limit, retry_after := some 0 })
      (1/5) = 6/5 := by
    norm_num [calculateDelay, defaultRetryCfg, min_def]
  refine ⟨hcd, ?_⟩
  rw [hcd]
  norm_num [defaultRetryCfg, min_def]

/-- Claim C8, amended: for every retry attempt `n`, if the failed
response carries a nonzero server-suggested delay the wait is
`min(suggested, max_delay)`; if it carries none (or the Python-falsy
`0`), the wait is `min(base * 2^n + j, max_delay)` where the jitter `j`
lies between 10% and 30% of `base * 2^n` whenever the uniform sample
does. -/
theorem C8_amended (cfg : RetryCfg) (n : Nat) (r : LarkResponse) (jf : ℚ)
    (hb : 0 ≤ cfg.base_delay) :
    (∀ ra : ℤ, r.retry_after = some ra → ra ≠ 0 →
      calculateDelay cfg n (some r) jf = min (ra : ℚ) cfg.max_delay) ∧
    ((r.retry_after = none ∨ r.retry_after = some 0) →
      1/10 ≤ jf → jf ≤ 3/10 →
      ∃ j : ℚ, 1/10 * (cfg.base_delay * 2 ^ n) ≤ j ∧
        j ≤ 3/10 * (cfg.base_delay * 2 ^ n) ∧
        calculateDelay cfg n (some r) jf = min (cfg.base_delay * 2 ^ n + j) cfg.max_delay) := by
  constructor
  · intro ra hra hne
    simp [calculateDelay, hra, hne]
  · intro hra h1 h2
    have hd : (0:ℚ) ≤ cfg.base_delay * 2 ^ n :=
      mul_nonneg hb (by positivity)
    refine ⟨jf * (cfg.base_delay * 2 ^ n), ?_, ?_, ?_⟩
    · exact mul_le_mul_of_nonneg_right h1 hd
    · exact mul_le_mul_of_nonneg_right h2 hd
    · rcases hra with h | h <;> simp [calculateDelay, h]

/-- Claim C8, amended, witness: a nonzero suggested delay of 7 at
attempt 2, and the backoff branch at attempt 1 with jitter sample
`0.2`. -/
theorem C8_amended_witness :
    calculateDelay defaultRetryCfg 2
        (some { success := false, error_type := some .rate_limit, retry_after := some 7 })
        (1/5) = min ((7 : ℤ) : ℚ) defaultRetryCfg.max_delay ∧
    (∃ j : ℚ, 1/10 * (defaultRetryCfg.base_delay * 2 ^ 1) ≤ j ∧
      j ≤ 3/10 * (defaultRetryCfg.base_delay * 2 ^ 1) ∧
      calculateDelay defaultRetryCfg 1
          (some { success := false, error_type := some .network }) (1/5) =
        min (defaultRetryCfg.base_delay * 2 ^ 1 + j) defaultRetryCfg.max_delay) :=
  ⟨(C8_amended defaultRetryCfg 2
      { success := false, error_type := some .rate_limit, retry_after := some 7 }
      (1/5) (by norm_num [defaultRetryCfg])).1 7 rfl (by decide),
   (C8_amended defaultRetryCfg 1
      { success := false, error_type := some .network }
      (1/5) (by norm_num [defaultRetryCfg])).2 (Or.inl rfl) (by norm_num) (by norm_num)⟩

end UserStoryMap
